import Mathlib

/-!
# simple-validator: `Validate` over a model of Go reflection

The development embeds `src/validator.go`.  The program inspects its input
only through package `reflect`, so the embedding has two layers:

* a model of the part of `reflect` the program calls (`Kind`, `Type.Elem`,
  `Type.NumField`, `Type.Field`, `StructTag.Get`, `Value.Kind`, `Value.IsNil`,
  `Value.Elem`, `Value.Field`, `Value.Len`), each with the panics the Go
  documentation gives it;
* the three functions of the program, `examiner`, `examinerStruct` and
  `isEmpty`, and the entry point `Validate`, written call by call after the
  source.

Go types may be recursive (`type P *P`, `type S []S`, a struct with a field
of type pointer to itself), so types are nodes of a table addressed by
identifiers, as the runtime's type descriptors are, and pointers are
addresses into a heap.  `examiner` recurses on `t.Elem()` with no bound, so
the embedding carries a recursion budget and reports its exhaustion apart
from a return and from a panic.
-/

namespace validator

/-! ## Outcomes of a Go call -/

/-- The run-time panics the modelled calls can raise. -/
inductive Panic where
  /-- A method called on a nil `reflect.Type` interface value. -/
  | nilType
  /-- Message `reflect: Elem of invalid type`. -/
  | typeElem
  /-- Message `reflect: NumField of non-struct type`. -/
  | typeNumField
  /-- Message `reflect: Field of non-struct type`, or `Field index out of bounds`. -/
  | typeField
  /-- Message `reflect: call of reflect.Value.IsNil on ... Value`. -/
  | valueIsNil
  /-- Message `reflect: call of reflect.Value.Elem on ... Value`. -/
  | valueElem
  /-- Message `reflect: call of reflect.Value.Field on ... Value`, or `Field index out of range`. -/
  | valueField
  /-- Message `reflect: call of reflect.Value.Len on ... Value`. -/
  | valueLen
  deriving DecidableEq, Repr

/-- What running a Go call gives: it returns, it panics, or the recursion
budget of the model is used up before it does either. -/
inductive Outcome (α : Type) where
  | ok (a : α)
  | panic (p : Panic)
  | outOfFuel
  deriving DecidableEq, Repr

/-- Sequencing: a panic or an exhausted budget ends the run. -/
def Outcome.bind {α β : Type} : Outcome α → (α → Outcome β) → Outcome β
  | .ok a, f => f a
  | .panic p, _ => .panic p
  | .outOfFuel, _ => .outOfFuel

instance : Monad Outcome where
  pure := Outcome.ok
  bind := Outcome.bind

/-! ## Model of package `reflect` -/

namespace reflect

/-- The kinds of `reflect.Kind`. -/
inductive Kind where
  | Invalid | Bool | Int | Int8 | Int16 | Int32 | Int64
  | Uint | Uint8 | Uint16 | Uint32 | Uint64 | Uintptr
  | Float32 | Float64 | Complex64 | Complex128
  | Array | Chan | Func | Interface | Map | Ptr | Slice | String | Struct
  | UnsafePointer
  deriving DecidableEq, Repr

/-- The boolean and numeric kinds: their values are plain machine words. -/
inductive BasicKind where
  | Bool | Int | Int8 | Int16 | Int32 | Int64
  | Uint | Uint8 | Uint16 | Uint32 | Uint64 | Uintptr
  | Float32 | Float64 | Complex64 | Complex128
  deriving DecidableEq, Repr

/-- The `reflect.Kind` of a boolean or numeric kind. -/
def BasicKind.toKind : BasicKind → Kind
  | .Bool => .Bool | .Int => .Int | .Int8 => .Int8 | .Int16 => .Int16
  | .Int32 => .Int32 | .Int64 => .Int64 | .Uint => .Uint | .Uint8 => .Uint8
  | .Uint16 => .Uint16 | .Uint32 => .Uint32 | .Uint64 => .Uint64
  | .Uintptr => .Uintptr | .Float32 => .Float32 | .Float64 => .Float64
  | .Complex64 => .Complex64 | .Complex128 => .Complex128

/-- Identifier of a type descriptor. -/
abbrev TypeId := Nat

/-- A struct tag, held as the `key:"value"` pairs of a conventionally
formatted tag string, in the order they are written. -/
structure StructTag where
  pairs : List (String × String)
  deriving DecidableEq, Repr

/-- The call `tag.Get(key)`: the value of the first pair with that key, and
the empty string when there is none. -/
def StructTag.Get (tag : StructTag) (key : String) : String :=
  match tag.pairs.find? (fun p => p.1 == key) with
  | some p => p.2
  | none => ""

/-- A `reflect.StructField`: the declared name, the tag and the field's type
(`Typ` for the Go field `Type`). -/
structure StructField where
  Name : String
  Tag : StructTag
  Typ : TypeId
  deriving DecidableEq, Repr

/-- A type descriptor. -/
inductive GoType where
  | basic (k : BasicKind)
  | string
  | array (len : Nat) (elem : TypeId)
  | chan (elem : TypeId)
  | func
  | interface
  | map (key elem : TypeId)
  | ptr (elem : TypeId)
  | slice (elem : TypeId)
  | struct (fields : List StructField)
  | unsafePointer
  deriving DecidableEq, Repr

/-- The types of a program: each identifier names a descriptor. -/
abbrev TypeTable := TypeId → GoType

/-- A `reflect.Type` interface value; `none` is the nil interface, which is
what `reflect.TypeOf(nil)` returns. -/
abbrev RType := Option TypeId

/-- The kind of a descriptor. -/
def GoType.Kind : GoType → Kind
  | .basic k => k.toKind
  | .string => .String
  | .array _ _ => .Array
  | .chan _ => .Chan
  | .func => .Func
  | .interface => .Interface
  | .map _ _ => .Map
  | .ptr _ => .Ptr
  | .slice _ => .Slice
  | .struct _ => .Struct
  | .unsafePointer => .UnsafePointer

/-- The call `t.Kind()`. -/
def RType.Kind (tt : TypeTable) : RType → Outcome Kind
  | none => .panic .nilType
  | some t => .ok (tt t).Kind

/-- The call `t.Elem()`: the element type of an array, channel, map, pointer
or slice type; it panics on a type of any other kind. -/
def RType.Elem (tt : TypeTable) : RType → Outcome RType
  | none => .panic .nilType
  | some t =>
    match tt t with
    | .array _ e => .ok (some e)
    | .chan e => .ok (some e)
    | .map _ e => .ok (some e)
    | .ptr e => .ok (some e)
    | .slice e => .ok (some e)
    | _ => .panic .typeElem

/-- The call `t.NumField()`: it panics on a type that is not a struct. -/
def RType.NumField (tt : TypeTable) : RType → Outcome Nat
  | none => .panic .nilType
  | some t =>
    match tt t with
    | .struct fields => .ok fields.length
    | _ => .panic .typeNumField

/-- The call `t.Field(i)`: it panics on a type that is not a struct and on an
index out of range. -/
def RType.Field (tt : TypeTable) : RType → Nat → Outcome StructField
  | none, _ => .panic .nilType
  | some t, i =>
    match tt t with
    | .struct fields =>
      match fields.get? i with
      | some f => .ok f
      | none => .panic .typeField
    | _ => .panic .typeField

/-- A `reflect.Value`.  A pointer holds an address into the heap, so values
may form cycles; an interface holds its dynamic value. -/
inductive Value where
  /-- The zero `reflect.Value`. -/
  | invalid
  | basic (k : BasicKind) (bits : Nat)
  | string (s : String)
  | array (elems : List Value)
  | chan (queued : Option (List Value))
  | func (isNil : Bool)
  | iface (dyn : Option Value)
  | map (entries : Option (List (Value × Value)))
  | ptr (addr : Option Nat)
  | slice (elems : Option (List Value))
  | struct (fields : List Value)
  | unsafePointer (addr : Option Nat)

/-- The memory pointers point into. -/
abbrev Heap := Nat → Value

/-- The call `v.Kind()`; the zero Value has kind `Invalid`. -/
def Value.Kind : Value → Kind
  | .invalid => .Invalid
  | .basic k _ => k.toKind
  | .string _ => .String
  | .array _ => .Array
  | .chan _ => .Chan
  | .func _ => .Func
  | .iface _ => .Interface
  | .map _ => .Map
  | .ptr _ => .Ptr
  | .slice _ => .Slice
  | .struct _ => .Struct
  | .unsafePointer _ => .UnsafePointer

/-- The call `v.IsNil()`: defined on channels, functions, interfaces, maps,
pointers, slices and unsafe pointers; it panics on any other value. -/
def Value.IsNil : Value → Outcome Bool
  | .chan q => .ok q.isNone
  | .func n => .ok n
  | .iface d => .ok d.isNone
  | .map m => .ok m.isNone
  | .ptr a => .ok a.isNone
  | .slice s => .ok s.isNone
  | .unsafePointer a => .ok a.isNone
  | _ => .panic .valueIsNil

/-- The call `v.Elem()`: the value an interface holds or a pointer points to,
the zero Value when the interface or pointer is nil; it panics on a value of
any other kind. -/
def Value.Elem (heap : Heap) : Value → Outcome Value
  | .iface (some d) => .ok d
  | .iface none => .ok .invalid
  | .ptr (some a) => .ok (heap a)
  | .ptr none => .ok .invalid
  | _ => .panic .valueElem

/-- The call `v.Field(i)`: it panics on a value that is not a struct and on an
index out of range. -/
def Value.Field : Value → Nat → Outcome Value
  | .struct fields, i =>
    match fields.get? i with
    | some x => .ok x
    | none => .panic .valueField
  | _, _ => .panic .valueField

/-- The call `v.Len()`: the number of bytes of a string, of elements of an
array, slice or map, of queued elements of a channel; it panics on a value of
any other kind.  (Go also accepts a pointer to an array, answered from the
static type; the program calls `Len` on values of kind `String` only.) -/
def Value.Len : Value → Outcome Nat
  | .string s => .ok s.utf8ByteSize
  | .array xs => .ok xs.length
  | .chan q => .ok (q.getD []).length
  | .map m => .ok (m.getD []).length
  | .slice s => .ok (s.getD []).length
  | _ => .panic .valueLen

/-- A Go value of type `any`: the nil interface, or a dynamic type with a
value of it. -/
abbrev GoAny := Option (TypeId × Value)

/-- The call `reflect.TypeOf(v)`. -/
def TypeOf : GoAny → RType
  | none => none
  | some (t, _) => some t

/-- The call `reflect.ValueOf(v)`. -/
def ValueOf : GoAny → Value
  | none => .invalid
  | some (_, x) => x

end reflect

open reflect

/-! ## The program -/

/-- The constant `validatorTag`. -/
def validatorTag : String := "validate"

/-- The struct `validateIssue`. -/
structure validateIssue where
  FieldName : String
  Msg : String
  deriving DecidableEq, Repr

/-- The struct `ErrValidateError`. -/
structure ErrValidateError where
  ValidationIssues : List validateIssue
  deriving DecidableEq, Repr

/-- The function `isEmpty`. -/
def isEmpty (value : Value) : Outcome Bool :=
  match value.Kind with
  | .String => do
    let n ← value.Len
    pure (n == 0)
  | .Ptr | .Interface => value.IsNil
  | _ => pure false

/-- The body of the loop of `examinerStruct` at index `i`: it returns the
issue list after the iteration. -/
def examinerStruct.body (tt : TypeTable) (t : RType) (v : Value) (i : Nat)
    (issues : List validateIssue) : Outcome (List validateIssue) := do
  let field ← t.Field tt i
  let fieldValue ← v.Field i
  let tag := field.Tag.Get validatorTag
  if tag ≠ "" then
    let jsonTag := field.Tag.Get "json"
    let fieldName := if jsonTag ≠ "" then jsonTag else field.Name
    if tag = "required" then
      let empty ← isEmpty fieldValue
      if empty then
        pure (issues ++ [{ FieldName := fieldName,
                           Msg := "Field '" ++ fieldName ++ "' is required but empty" }])
      else pure issues
    else pure issues
  else pure issues

/-- The loop `for i := 0; i < t.NumField(); i++` of `examinerStruct`, from
index `i` on; `todo` bounds the evaluations of the loop condition still to
run. -/
def examinerStruct.loop (tt : TypeTable) (t : RType) (v : Value) :
    Nat → Nat → List validateIssue → Outcome (List validateIssue)
  | 0, _, _ => .outOfFuel
  | todo + 1, i, issues => do
    let n ← t.NumField tt
    if i < n then
      let issues ← examinerStruct.body tt t v i issues
      examinerStruct.loop tt t v todo (i + 1) issues
    else pure issues

/-- The function `examinerStruct`; the issue list behind the pointer `issues`
is passed in and returned.  The loop condition is evaluated once per field
and once more to leave the loop. -/
def examinerStruct (tt : TypeTable) (t : RType) (v : Value)
    (issues : List validateIssue) : Outcome (List validateIssue) := do
  let n ← t.NumField tt
  examinerStruct.loop tt t v (n + 1) 0 issues

/-- The function `examiner`; `fuel` bounds the depth of the recursion.  The
parameter `depth` is passed along and never read. -/
def examiner (tt : TypeTable) (heap : Heap) :
    Nat → RType → Value → Nat → List validateIssue → Outcome (List validateIssue)
  | 0, _, _, _, _ => .outOfFuel
  | fuel + 1, t, v, depth, issues => do
    let k ← t.Kind tt
    match k with
    | .Array | .Chan | .Map | .Ptr | .Slice =>
      let k ← t.Kind tt
      let unwrap ← if k = .Ptr then (do let n ← v.IsNil; pure (!n)) else pure false
      let (t, v) ← if unwrap then (do
          let t ← t.Elem tt
          let v ← v.Elem heap
          pure (t, v))
        else pure (t, v)
      let e ← t.Elem tt
      examiner tt heap fuel e v (depth + 1) issues
    | .Struct => examinerStruct tt t v issues
    | _ => pure issues

/-- The function `Validate`; the Go `error` it returns is `none` for nil and
otherwise the `ErrValidateError`. -/
def Validate (tt : TypeTable) (heap : Heap) (fuel : Nat) (v : GoAny) :
    Outcome (Option ErrValidateError) := do
  let reflectionType := TypeOf v
  let reflectionValue := ValueOf v
  let issues ← examiner tt heap fuel reflectionType reflectionValue 0 []
  if issues.length ≠ 0 then
    pure (some { ValidationIssues := issues })
  else pure none

/-! ## The specification's reading of a struct -/

/-- Shallow typing of the field values of a struct value: one value per
declared field, each of the kind of the field's declared type. -/
def fieldsConform (tt : TypeTable) : List StructField → List Value → Bool
  | [], [] => true
  | f :: fs, x :: xs => (x.Kind == (tt f.Typ).Kind) && fieldsConform tt fs xs
  | _, _ => false

/-- The specification's display name of a field: the serialization-name
(json) annotation if present, else the declared name. -/
def specDisplayName (f : StructField) : String :=
  if f.Tag.Get "json" ≠ "" then f.Tag.Get "json" else f.Name

/-- The specification's empty values: a string of length zero, a nil pointer,
a nil interface; a value of any other kind is never empty. -/
def specEmpty : Value → Bool
  | .string s => s.length == 0
  | .ptr none => true
  | .iface none => true
  | _ => false

/-- The specification's issue for a field reported under `name`. -/
def specIssue (name : String) : validateIssue :=
  { FieldName := name, Msg := "Field '" ++ name ++ "' is required but empty" }

/-- The specification's issues of one field: one issue when its validate
directive is `required` and its value is empty, none otherwise. -/
def specFieldIssues (f : StructField) (x : Value) : List validateIssue :=
  if f.Tag.Get "validate" = "required" ∧ specEmpty x = true then
    [specIssue (specDisplayName f)]
  else []

/-- The specification's issue list of a struct: the issues of its fields, in
declaration order. -/
def specIssues : List StructField → List Value → List validateIssue
  | f :: fs, x :: xs => specFieldIssues f x ++ specIssues fs xs
  | _, _ => []

/-- The specification's result for an accumulated issue list: success when it
is empty, otherwise the error that carries it. -/
def specResult (issues : List validateIssue) : Option ErrValidateError :=
  if issues = [] then none else some { ValidationIssues := issues }

/-! ## Example inputs -/

/-- The fields of
`type User struct { Foo string; Age int; Boss *User; Nick string }` with the
tags `validate:"required" json:"foo_bar"` on `Foo`, `validate:"required"` on
`Age` and on `Boss`, and `validate:"Required"` on `Nick`. -/
def userFields : List StructField :=
  [ { Name := "Foo", Tag := ⟨[("validate", "required"), ("json", "foo_bar")]⟩, Typ := 0 },
    { Name := "Age", Tag := ⟨[("validate", "required")]⟩, Typ := 1 },
    { Name := "Boss", Tag := ⟨[("validate", "required")]⟩, Typ := 2 },
    { Name := "Nick", Tag := ⟨[("validate", "Required")]⟩, Typ := 0 } ]

/-- The fields of `type Inner struct { Name string }` with the tag
`validate:"required"` on `Name`. -/
def innerFields : List StructField :=
  [ { Name := "Name", Tag := ⟨[("validate", "required")]⟩, Typ := 0 } ]

/-- The fields of `type Outer struct { Title string; Inner Inner }` with the
tag `validate:"required"` on `Title`. -/
def outerFields : List StructField :=
  [ { Name := "Title", Tag := ⟨[("validate", "required")]⟩, Typ := 0 },
    { Name := "Inner", Tag := ⟨[]⟩, Typ := 4 } ]

/-- The types of the examples: `string` (0), `int` (1), `*User` (2), `User`
(3), `Inner` (4), `Outer` (5). -/
def exampleTypes : TypeTable
  | 0 => .string
  | 1 => .basic .Int
  | 2 => .ptr 3
  | 3 => .struct userFields
  | 4 => .struct innerFields
  | 5 => .struct outerFields
  | _ => .basic .Bool

/-- The value `User{Foo: "", Age: 0, Boss: nil, Nick: ""}`. -/
def userBlank : Value :=
  .struct [.string "", .basic .Int 0, .ptr none, .string ""]

/-- The two issues of `userBlank`: `Foo`, reported under its json annotation,
and `Boss`. -/
def userBlankIssues : List validateIssue :=
  [ { FieldName := "foo_bar", Msg := "Field 'foo_bar' is required but empty" },
    { FieldName := "Boss", Msg := "Field 'Boss' is required but empty" } ]

/-- The value `User{Foo: "x", Age: 0, Boss: p, Nick: ""}` with `p` the
address 0. -/
def userFilled : Value :=
  .struct [.string "x", .basic .Int 0, .ptr (some 0), .string ""]

/-- The value `Outer{Title: "t", Inner: Inner{Name: ""}}`. -/
def outerValue : Value :=
  .struct [.string "t", .struct [.string ""]]

/-- A heap holding `userBlank` at every address. -/
def exampleHeap : Heap := fun _ => userBlank

/-- The fields of `type Plain struct { A string; B *Inner; C int }`, none with
a validate directive; `A` has the tag `json:"a"`. -/
def plainFields : List StructField :=
  [ { Name := "A", Tag := ⟨[("json", "a")]⟩, Typ := 0 },
    { Name := "B", Tag := ⟨[]⟩, Typ := 3 },
    { Name := "C", Tag := ⟨[]⟩, Typ := 9 } ]

/-- The fields of `type Node struct { Next *Node }` with the tag
`validate:"required"` on `Next`. -/
def nodeFields : List StructField :=
  [ { Name := "Next", Tag := ⟨[("validate", "required")]⟩, Typ := 5 } ]

/-- The fields of `type Tagged struct { Name string; Secret string; Any any }`
with the tags `validate:"required" json:"name,omitempty"` on `Name`,
`validate:"required" json:"-"` on `Secret` and `validate:"required"` on `Any`. -/
def taggedFields : List StructField :=
  [ { Name := "Name", Tag := ⟨[("validate", "required"), ("json", "name,omitempty")]⟩,
      Typ := 0 },
    { Name := "Secret", Tag := ⟨[("validate", "required"), ("json", "-")]⟩, Typ := 0 },
    { Name := "Any", Tag := ⟨[("validate", "required")]⟩, Typ := 7 } ]

/-- The types of the further examples: `string` (0), `Inner` (1), `[]Inner`
(2), `*Inner` (3), `Node` (4), `*Node` (5), `Tagged` (6), `any` (7), `Plain`
(8), `int` (9), `func()` (10). -/
def moreTypes : TypeTable
  | 0 => .string
  | 1 => .struct innerFields
  | 2 => .slice 1
  | 3 => .ptr 1
  | 4 => .struct nodeFields
  | 5 => .ptr 4
  | 6 => .struct taggedFields
  | 7 => .interface
  | 8 => .struct plainFields
  | 9 => .basic .Int
  | 10 => .func
  | _ => .basic .Bool

/-- A heap whose every cell holds a `Node` whose `Next` is the address 0: the
node at address 0 points to itself. -/
def nodeHeap : Heap := fun _ => .struct [.ptr (some 0)]

/-- The types of `type P *P`: the pointer type 0 whose element type is
itself. -/
def selfPtrTypes : TypeTable := fun _ => .ptr 0

/-- A heap whose every cell holds the pointer to address 0: the `P` at
address 0 points to itself. -/
def selfPtrHeap : Heap := fun _ => .ptr (some 0)

/-! ## Element chains -/

/-- The element type of a descriptor of kind `Array`, `Chan`, `Map`, `Ptr` or
`Slice`; none for any other kind. -/
def elemOf : GoType → Option TypeId
  | .array _ e => some e
  | .chan e => some e
  | .map _ e => some e
  | .ptr e => some e
  | .slice e => some e
  | _ => none

/-- The type reached from `t` by `n` steps to the element type, when every
type on the way has one. -/
def elemChain (tt : TypeTable) : Nat → TypeId → Option TypeId
  | 0, t => some t
  | n + 1, t =>
    match elemOf (tt t) with
    | some e => elemChain tt n e
    | none => none

/-! ## Properties of the model of `reflect` -/

theorem utf8ByteSize_go_eq_zero (cs : List Char) :
    String.utf8ByteSize.go cs = 0 ↔ cs = [] := by
  cases cs with
  | nil => simp [String.utf8ByteSize.go]
  | cons c cs =>
    have hc := c.utf8Size_pos
    simp only [String.utf8ByteSize.go]
    constructor
    · intro h; omega
    · intro h; cases h

theorem utf8ByteSize_eq_zero (s : String) : s.utf8ByteSize = 0 ↔ s.length = 0 := by
  cases s with
  | mk cs =>
    simp only [String.utf8ByteSize, String.length, utf8ByteSize_go_eq_zero,
      List.length_eq_zero]

@[simp] theorem Outcome.pure_eq {α : Type} (a : α) : (pure a : Outcome α) = .ok a := rfl

@[simp] theorem Outcome.ok_bind {α β : Type} (a : α) (f : α → Outcome β) :
    (Outcome.ok a >>= f) = f a := rfl

@[simp] theorem Outcome.panic_bind {α β : Type} (p : Panic) (f : α → Outcome β) :
    (Outcome.panic p >>= f) = .panic p := rfl

@[simp] theorem Outcome.outOfFuel_bind {α β : Type} (f : α → Outcome β) :
    (Outcome.outOfFuel >>= f) = .outOfFuel := rfl

/-- The function `isEmpty` never panics, and answers as the specification's
notion of an empty value. -/
theorem isEmpty_eq (x : Value) : isEmpty x = .ok (specEmpty x) := by
  cases x with
  | basic k bits => cases k <;> rfl
  | string s =>
    have h := utf8ByteSize_eq_zero s
    simp only [isEmpty, Value.Kind, Value.Len, specEmpty, Outcome.ok_bind, Outcome.pure_eq]
    congr 1
    by_cases hs : s.length = 0
    · simp [hs, h.mpr hs]
    · have hb : s.utf8ByteSize ≠ 0 := fun hb => hs (h.mp hb)
      simp [hs, hb]
  | ptr a => cases a <;> rfl
  | iface d => cases d <;> rfl
  | _ => rfl

/-! ## `examinerStruct` on a struct value -/

theorem fieldsConform_length (tt : TypeTable) :
    ∀ (fields : List StructField) (vals : List Value),
      fieldsConform tt fields vals = true → vals.length = fields.length
  | [], [], _ => rfl
  | [], _ :: _, h => by simp [fieldsConform] at h
  | _ :: _, [], h => by simp [fieldsConform] at h
  | f :: fs, x :: xs, h => by
    simp only [fieldsConform, Bool.and_eq_true] at h
    simp [fieldsConform_length tt fs xs h.2]

/-- One iteration of the loop appends the specification's issues of the field. -/
theorem examinerStruct_body_eq (tt : TypeTable) (t : TypeId) (fields : List StructField)
    (vals : List Value) (i : Nat) (f : StructField) (x : Value)
    (issues : List validateIssue) (ht : tt t = .struct fields)
    (hf : fields.get? i = some f) (hx : vals.get? i = some x) :
    examinerStruct.body tt (some t) (.struct vals) i issues =
      .ok (issues ++ specFieldIssues f x) := by
  simp only [examinerStruct.body, RType.Field, Value.Field, ht, hf, hx, Outcome.ok_bind,
    isEmpty_eq, Outcome.pure_eq, validatorTag, specFieldIssues, specIssue, specDisplayName]
  by_cases hreq : f.Tag.Get "validate" = "required"
  · have hne : f.Tag.Get "validate" ≠ "" := by rw [hreq]; decide
    cases hE : specEmpty x <;> simp [hreq, hE]
  · by_cases hne : f.Tag.Get "validate" = "" <;> simp [hreq, hne]

theorem specIssues_drop (fields : List StructField) (vals : List Value) (i : Nat)
    (f : StructField) (x : Value) (hf : fields.get? i = some f) (hx : vals.get? i = some x) :
    specIssues (fields.drop i) (vals.drop i) =
      specFieldIssues f x ++ specIssues (fields.drop (i + 1)) (vals.drop (i + 1)) := by
  induction i generalizing fields vals with
  | zero =>
    cases fields with
    | nil => simp at hf
    | cons g gs =>
      cases vals with
      | nil => simp at hx
      | cons y ys =>
        simp only [List.get?_cons_zero, Option.some.injEq] at hf hx
        subst hf; subst hx
        simp [specIssues]
  | succ i ih =>
    cases fields with
    | nil => simp at hf
    | cons g gs =>
      cases vals with
      | nil => simp at hx
      | cons y ys =>
        simp only [List.get?_cons_succ] at hf hx
        simpa using ih gs ys hf hx

/-- The loop of `examinerStruct`, entered at index `i` with enough iterations
left, returns the issues so far followed by those of the fields from `i` on. -/
theorem examinerStruct_loop_eq (tt : TypeTable) (t : TypeId) (fields : List StructField)
    (vals : List Value) (ht : tt t = .struct fields) (hlen : vals.length = fields.length) :
    ∀ (todo i : Nat) (issues : List validateIssue), i ≤ fields.length →
      fields.length < i + todo →
      examinerStruct.loop tt (some t) (.struct vals) todo i issues =
        .ok (issues ++ specIssues (fields.drop i) (vals.drop i)) := by
  intro todo
  induction todo with
  | zero =>
    intro i issues hle h
    omega
  | succ todo ih =>
    intro i issues hle h
    simp only [examinerStruct.loop, RType.NumField, ht, Outcome.ok_bind]
    by_cases hi : i < fields.length
    · have hf : fields.get? i = some (fields.get ⟨i, hi⟩) := List.get?_eq_get hi
      have hi2 : i < vals.length := by omega
      have hx : vals.get? i = some (vals.get ⟨i, hi2⟩) := List.get?_eq_get hi2
      rw [if_pos hi, examinerStruct_body_eq tt t fields vals i _ _ issues ht hf hx]
      simp only [Outcome.ok_bind]
      rw [ih (i + 1) _ (by omega) (by omega), specIssues_drop fields vals i _ _ hf hx,
        List.append_assoc]
    · rw [if_neg hi]
      have hi2 : fields.length ≤ i := by omega
      simp [List.drop_eq_nil_of_le hi2, specIssues]

/-- On a struct value of its type `examinerStruct` returns, having appended
the specification's issue list of the struct. -/
theorem examinerStruct_eq (tt : TypeTable) (t : TypeId) (fields : List StructField)
    (vals : List Value) (issues : List validateIssue) (ht : tt t = .struct fields)
    (hlen : vals.length = fields.length) :
    examinerStruct tt (some t) (.struct vals) issues =
      .ok (issues ++ specIssues fields vals) := by
  simp only [examinerStruct, RType.NumField, ht, Outcome.ok_bind]
  rw [examinerStruct_loop_eq tt t fields vals ht hlen (fields.length + 1) 0 issues
    (by omega) (by omega)]
  simp

/-- On a struct value passed directly, `examiner` is `examinerStruct`. -/
theorem examiner_struct_eq (tt : TypeTable) (heap : Heap) (fuel : Nat) (t : TypeId)
    (fields : List StructField) (vals : List Value) (depth : Nat)
    (issues : List validateIssue) (ht : tt t = .struct fields)
    (hlen : vals.length = fields.length) :
    examiner tt heap (fuel + 1) (some t) (.struct vals) depth issues =
      .ok (issues ++ specIssues fields vals) := by
  simp only [examiner, RType.Kind, ht, GoType.Kind, Outcome.ok_bind]
  exact examinerStruct_eq tt t fields vals issues ht hlen

/-- On a struct value passed directly, `Validate` returns the specification's
result for the specification's issue list of the struct. -/
theorem Validate_struct_eq (tt : TypeTable) (heap : Heap) (fuel : Nat) (t : TypeId)
    (fields : List StructField) (vals : List Value) (ht : tt t = .struct fields)
    (hconf : fieldsConform tt fields vals = true) :
    Validate tt heap (fuel + 1) (some (t, .struct vals)) =
      .ok (specResult (specIssues fields vals)) := by
  have hlen := fieldsConform_length tt fields vals hconf
  simp only [Validate, TypeOf, ValueOf,
    examiner_struct_eq tt heap fuel t fields vals 0 [] ht hlen, Outcome.ok_bind,
    List.nil_append, specResult]
  by_cases h : specIssues fields vals = []
  · simp [h]
  · have h2 : (specIssues fields vals).length ≠ 0 := by
      simpa [List.length_eq_zero] using h
    simp [h, h2]

theorem specIssues_split (fields : List StructField) (vals : List Value) (i : Nat)
    (f : StructField) (x : Value) (hf : fields.get? i = some f) (hx : vals.get? i = some x) :
    specIssues fields vals =
      specIssues (fields.take i) (vals.take i) ++ specFieldIssues f x ++
        specIssues (fields.drop (i + 1)) (vals.drop (i + 1)) := by
  induction i generalizing fields vals with
  | zero =>
    have h := specIssues_drop fields vals 0 f x hf hx
    simpa [specIssues] using h
  | succ i ih =>
    cases fields with
    | nil => simp at hf
    | cons g gs =>
      cases vals with
      | nil => simp at hx
      | cons y ys =>
        simp only [List.get?_cons_succ] at hf hx
        simp [specIssues, ih gs ys hf hx, List.append_assoc]

/-- On a struct value passed directly, the issue list `Validate` works from
is that of the fields before index `i`, then that of field `i`, then that of
the fields after it. -/
theorem Validate_struct_at (tt : TypeTable) (heap : Heap) (fuel : Nat) (t : TypeId)
    (fields : List StructField) (vals : List Value) (i : Nat) (f : StructField) (x : Value)
    (ht : tt t = .struct fields) (hconf : fieldsConform tt fields vals = true)
    (hf : fields.get? i = some f) (hx : vals.get? i = some x) :
    Validate tt heap (fuel + 1) (some (t, .struct vals)) =
      .ok (specResult (specIssues (fields.take i) (vals.take i) ++ specFieldIssues f x ++
        specIssues (fields.drop (i + 1)) (vals.drop (i + 1)))) := by
  rw [Validate_struct_eq tt heap fuel t fields vals ht hconf,
    specIssues_split fields vals i f x hf hx]

theorem fieldsConform_get (tt : TypeTable) :
    ∀ (fields : List StructField) (vals : List Value) (i : Nat) (f : StructField) (x : Value),
      fieldsConform tt fields vals = true → fields.get? i = some f → vals.get? i = some x →
      x.Kind = (tt f.Typ).Kind
  | [], _, _, _, _, _, hf, _ => by simp at hf
  | _ :: _, [], _, _, _, _, _, hx => by simp at hx
  | g :: gs, y :: ys, 0, f, x, h, hf, hx => by
    simp only [List.get?_cons_zero, Option.some.injEq] at hf hx
    subst hf; subst hx
    simp only [fieldsConform, Bool.and_eq_true, beq_iff_eq] at h
    exact h.1
  | g :: gs, y :: ys, i + 1, f, x, h, hf, hx => by
    simp only [List.get?_cons_succ] at hf hx
    simp only [fieldsConform, Bool.and_eq_true] at h
    exact fieldsConform_get tt gs ys i f x h.2 hf hx

/-- A value whose kind is not `String`, `Ptr` or `Interface` is not empty. -/
theorem specEmpty_of_kind (x : Value) (h1 : x.Kind ≠ .String) (h2 : x.Kind ≠ .Ptr)
    (h3 : x.Kind ≠ .Interface) : specEmpty x = false := by
  cases x with
  | string s => exact absurd rfl h1
  | ptr a => exact absurd rfl h2
  | iface d => exact absurd rfl h3
  | _ => rfl

/-- Every one of the specification's issues of a struct is the issue of one
of its fields, required and empty, under that field's display name. -/
theorem mem_specIssues (iss : validateIssue) :
    ∀ (fields : List StructField) (vals : List Value), iss ∈ specIssues fields vals →
      ∃ i f x, fields.get? i = some f ∧ vals.get? i = some x ∧
        f.Tag.Get "validate" = "required" ∧ specEmpty x = true ∧
        iss = specIssue (specDisplayName f)
  | [], _, h => by simp [specIssues] at h
  | _ :: _, [], h => by simp [specIssues] at h
  | g :: gs, y :: ys, h => by
    simp only [specIssues, List.mem_append] at h
    rcases h with h | h
    · refine ⟨0, g, y, rfl, rfl, ?_⟩
      unfold specFieldIssues at h
      split at h
      · rename_i hc
        exact ⟨hc.1, hc.2, by simpa using h⟩
      · simp at h
    · obtain ⟨i, f, x, hf, hx, hrest⟩ := mem_specIssues iss gs ys h
      exact ⟨i + 1, f, x, by simpa using hf, by simpa using hx, hrest⟩

/-! ## The claims -/

/-- C1: for every struct value passed directly to `Validate`, the call returns
and the issue list is the one obtained by walking the fields in declaration
order and emitting, for each field whose validate directive is `required` and
whose value is empty (zero-length string, nil pointer, nil interface), exactly
one issue under the field's display name with the message
`Field '<display name>' is required but empty`; no other issue appears. -/
theorem Validate_struct_issues_in_declaration_order (tt : TypeTable) (heap : Heap)
    (fuel : Nat) (t : TypeId) (fields : List StructField) (vals : List Value)
    (ht : tt t = .struct fields) (hconf : fieldsConform tt fields vals = true) :
    Validate tt heap (fuel + 1) (some (t, .struct vals)) =
      .ok (specResult (specIssues fields vals)) :=
  Validate_struct_eq tt heap fuel t fields vals ht hconf

/-- C1 at `User{Foo: "", Age: 0, Boss: nil, Nick: ""}`: two violations, `Foo`
(reported as `foo_bar`) before `Boss`, as the fields are declared. -/
theorem Validate_struct_issues_in_declaration_order_witness :
    exampleTypes 3 = .struct userFields ∧
    fieldsConform exampleTypes userFields
      [.string "", .basic .Int 0, .ptr none, .string ""] = true ∧
    specResult (specIssues userFields [.string "", .basic .Int 0, .ptr none, .string ""]) =
      some ⟨[⟨"foo_bar", "Field 'foo_bar' is required but empty"⟩,
             ⟨"Boss", "Field 'Boss' is required but empty"⟩]⟩ ∧
    Validate exampleTypes exampleHeap 1
        (some (3, .struct [.string "", .basic .Int 0, .ptr none, .string ""])) =
      .ok (specResult
        (specIssues userFields [.string "", .basic .Int 0, .ptr none, .string ""])) :=
  ⟨rfl, by decide, by decide,
    Validate_struct_issues_in_declaration_order exampleTypes exampleHeap 0 3 userFields
      [.string "", .basic .Int 0, .ptr none, .string ""] rfl (by decide)⟩

/-- C2: whenever `Validate` returns, `examiner` has returned the accumulated
issue list, and the result is an `ErrValidateError` if and only if that list
is non-empty; the error carries the list unchanged, the result is nil when the
list is empty, and it is never an error holding an empty list. -/
theorem Validate_error_iff_issues_nonempty (tt : TypeTable) (heap : Heap) (fuel : Nat)
    (v : GoAny) (r : Option ErrValidateError) (h : Validate tt heap fuel v = .ok r) :
    ∃ issues, examiner tt heap fuel (TypeOf v) (ValueOf v) 0 [] = .ok issues ∧
      ((∃ e, r = some e) ↔ issues ≠ []) ∧
      (∀ e, r = some e → e.ValidationIssues = issues) ∧
      (issues = [] → r = none) ∧
      r ≠ some { ValidationIssues := [] } := by
  unfold Validate at h
  cases hex : examiner tt heap fuel (TypeOf v) (ValueOf v) 0 [] with
  | panic p => simp [hex] at h
  | outOfFuel => simp [hex] at h
  | ok issues =>
    refine ⟨issues, rfl, ?_⟩
    simp only [hex, Outcome.ok_bind, Outcome.pure_eq] at h
    cases issues with
    | nil =>
      simp only [List.length_nil, ne_eq, not_true_eq_false, if_false,
        Outcome.ok.injEq] at h
      subst h
      simp
    | cons a as =>
      simp only [List.length_cons, ne_eq, Nat.add_one_ne_zero, not_false_eq_true, if_true,
        Outcome.ok.injEq] at h
      subst h
      simp

/-- C2 at `User{Foo: "", Age: 0, Boss: nil, Nick: ""}`, on which `Validate`
returns an error: the error carries the two accumulated issues. -/
theorem Validate_error_iff_issues_nonempty_witness :
    Validate exampleTypes exampleHeap 1 (some (3, userBlank)) =
      .ok (some ⟨userBlankIssues⟩) ∧
    ∃ issues, examiner exampleTypes exampleHeap 1 (TypeOf (some (3, userBlank)))
        (ValueOf (some (3, userBlank))) 0 [] = .ok issues ∧
      ((∃ e, some (ErrValidateError.mk userBlankIssues) = some e) ↔ issues ≠ []) ∧
      (∀ e, some (ErrValidateError.mk userBlankIssues) = some e →
        e.ValidationIssues = issues) ∧
      (issues = [] → some (ErrValidateError.mk userBlankIssues) = none) ∧
      some (ErrValidateError.mk userBlankIssues) ≠ some { ValidationIssues := [] } :=
  ⟨by decide,
    Validate_error_iff_issues_nonempty exampleTypes exampleHeap 1 (some (3, userBlank))
      (some ⟨userBlankIssues⟩) (by decide)⟩

/-- C3 (the code departs from the claim): on a non-nil pointer to a struct,
`examiner` replaces `t` by the pointed-to struct type and then calls
`t.Elem()` once more, on the struct type, which panics; `Validate` never
reaches the struct and returns nothing. -/
theorem Validate_pointer_to_struct_panics (tt : TypeTable) (heap : Heap) (fuel : Nat)
    (t s : TypeId) (fields : List StructField) (a : Nat)
    (ht : tt t = .ptr s) (hs : tt s = .struct fields) :
    Validate tt heap (fuel + 1) (some (t, .ptr (some a))) = .panic .typeElem := by
  simp [Validate, TypeOf, ValueOf, examiner, RType.Kind, RType.Elem, Value.IsNil,
    Value.Elem, GoType.Kind, ht, hs]

/-- C3 at a pointer to `User{Foo: "", Age: 0, Boss: nil, Nick: ""}`: on the
struct itself `Validate` returns two issues, on the pointer it panics. -/
theorem Validate_pointer_to_struct_panics_witness :
    exampleTypes 2 = .ptr 3 ∧ exampleTypes 3 = .struct userFields ∧
    Validate exampleTypes exampleHeap 1 (some (3, exampleHeap 0)) =
      .ok (some ⟨[⟨"foo_bar", "Field 'foo_bar' is required but empty"⟩,
                  ⟨"Boss", "Field 'Boss' is required but empty"⟩]⟩) ∧
    Validate exampleTypes exampleHeap 1 (some (2, .ptr (some 0))) = .panic .typeElem :=
  ⟨rfl, rfl, by decide,
    Validate_pointer_to_struct_panics exampleTypes exampleHeap 0 2 3 userFields 0 rfl rfl⟩

/-- C4, against the claim as stated: in `Outer{Title: "t", Inner: Inner{Name: ""}}`
the nested struct has a required and empty field `Name`, and `Validate` on the
outer struct succeeds with no issue. -/
theorem Validate_nested_struct_counterexample :
    exampleTypes 5 = .struct outerFields ∧
    outerFields.get? 1 = some ⟨"Inner", ⟨[]⟩, 4⟩ ∧
    exampleTypes 4 = .struct innerFields ∧
    fieldsConform exampleTypes outerFields [.string "t", .struct [.string ""]] = true ∧
    fieldsConform exampleTypes innerFields [.string ""] = true ∧
    specIssues innerFields [.string ""] = [⟨"Name", "Field 'Name' is required but empty"⟩] ∧
    Validate exampleTypes exampleHeap 1 (some (4, .struct [.string ""])) =
      .ok (some ⟨[⟨"Name", "Field 'Name' is required but empty"⟩]⟩) ∧
    Validate exampleTypes exampleHeap 1
      (some (5, .struct [.string "t", .struct [.string ""]])) = .ok none := by
  decide

/-- C4 as amended: `Validate` does not recurse into a field that is itself a
struct.  Whatever the nested struct holds, and whatever the field's own
directive, the field contributes no issue: the issue list is that of the
fields before it followed by that of the fields after it. -/
theorem Validate_nested_struct_not_examined (tt : TypeTable) (heap : Heap) (fuel : Nat)
    (t : TypeId) (fields : List StructField) (vals : List Value) (i : Nat)
    (f : StructField) (inner : List Value)
    (ht : tt t = .struct fields) (hconf : fieldsConform tt fields vals = true)
    (hf : fields.get? i = some f) (hx : vals.get? i = some (.struct inner)) :
    Validate tt heap (fuel + 1) (some (t, .struct vals)) =
      .ok (specResult (specIssues (fields.take i) (vals.take i) ++
        specIssues (fields.drop (i + 1)) (vals.drop (i + 1)))) := by
  rw [Validate_struct_at tt heap fuel t fields vals i f (.struct inner) ht hconf hf hx]
  simp [specFieldIssues, specEmpty]

/-- C4 as amended, at `Outer{Title: "t", Inner: Inner{Name: ""}}`. -/
theorem Validate_nested_struct_not_examined_witness :
    exampleTypes 5 = .struct outerFields ∧
    fieldsConform exampleTypes outerFields [.string "t", .struct [.string ""]] = true ∧
    outerFields.get? 1 = some ⟨"Inner", ⟨[]⟩, 4⟩ ∧
    [Value.string "t", .struct [.string ""]].get? 1 = some (.struct [.string ""]) ∧
    Validate exampleTypes exampleHeap 1
      (some (5, .struct [.string "t", .struct [.string ""]])) =
      .ok (specResult (specIssues (outerFields.take 1) [.string "t"] ++
        specIssues (outerFields.drop 2) [])) :=
  ⟨rfl, by decide, rfl, rfl,
    Validate_nested_struct_not_examined exampleTypes exampleHeap 0 5 outerFields
      [.string "t", .struct [.string ""]] 1 ⟨"Inner", ⟨[]⟩, 4⟩ [.string ""] rfl (by decide)
      rfl rfl⟩

/-- C5: for every struct with a single string field marked required,
`Validate` on the value whose field is `""` fails with exactly one issue; its
field name is the json annotation when there is one and the declared name
otherwise, and its message is `Field '<name>' is required but empty` for that
same name. -/
theorem Validate_single_required_string_empty (tt : TypeTable) (heap : Heap) (fuel : Nat)
    (t : TypeId) (f : StructField) (ht : tt t = .struct [f]) (hty : tt f.Typ = .string)
    (hreq : f.Tag.Get "validate" = "required") :
    ∃ e, Validate tt heap (fuel + 1) (some (t, .struct [.string ""])) = .ok (some e) ∧
      e.ValidationIssues.length = 1 ∧
      e.ValidationIssues =
        [{ FieldName := if f.Tag.Get "json" ≠ "" then f.Tag.Get "json" else f.Name,
           Msg := "Field '" ++ (if f.Tag.Get "json" ≠ "" then f.Tag.Get "json" else f.Name)
                    ++ "' is required but empty" }] := by
  have hconf : fieldsConform tt [f] [.string ""] = true := by
    simp [fieldsConform, hty, Value.Kind, GoType.Kind]
  refine ⟨_, ?_, ?_, rfl⟩
  · rw [Validate_struct_eq tt heap fuel t [f] [.string ""] ht hconf]
    simp [specIssues, specFieldIssues, specEmpty, hreq, specResult, specIssue,
      specDisplayName]
  · rfl

/-- C5 at `Inner{Name: ""}`, whose field has no json annotation. -/
theorem Validate_single_required_string_empty_witness :
    exampleTypes 4 = .struct [⟨"Name", ⟨[("validate", "required")]⟩, 0⟩] ∧
    exampleTypes 0 = .string ∧
    ∃ e, Validate exampleTypes exampleHeap 1 (some (4, .struct [.string ""])) = .ok (some e) ∧
      e.ValidationIssues.length = 1 ∧
      e.ValidationIssues = [⟨"Name", "Field 'Name' is required but empty"⟩] :=
  ⟨rfl, rfl,
    Validate_single_required_string_empty exampleTypes exampleHeap 0 4
      ⟨"Name", ⟨[("validate", "required")]⟩, 0⟩ rfl rfl (by decide)⟩

/-- C6: for every struct with a single string field marked required and every
non-empty string `x`, `Validate` on the value whose field is `x` returns nil. -/
theorem Validate_single_required_string_nonempty (tt : TypeTable) (heap : Heap)
    (fuel : Nat) (t : TypeId) (f : StructField) (x : String)
    (ht : tt t = .struct [f]) (hty : tt f.Typ = .string)
    (hreq : f.Tag.Get "validate" = "required") (hx : x ≠ "") :
    Validate tt heap (fuel + 1) (some (t, .struct [.string x])) = .ok none := by
  have hconf : fieldsConform tt [f] [.string x] = true := by
    simp [fieldsConform, hty, Value.Kind, GoType.Kind]
  have hlen : x.length ≠ 0 := by
    intro h0
    apply hx
    cases x with
    | mk cs =>
      have : cs = [] := List.length_eq_zero.mp h0
      subst this
      rfl
  rw [Validate_struct_eq tt heap fuel t [f] [.string x] ht hconf]
  simp [specIssues, specFieldIssues, specEmpty, hreq, specResult, hlen]

/-- C6 at `Inner{Name: "x"}`. -/
theorem Validate_single_required_string_nonempty_witness :
    exampleTypes 4 = .struct [⟨"Name", ⟨[("validate", "required")]⟩, 0⟩] ∧
    exampleTypes 0 = .string ∧ "x" ≠ "" ∧
    Validate exampleTypes exampleHeap 1 (some (4, .struct [.string "x"])) = .ok none :=
  ⟨rfl, rfl, by decide,
    Validate_single_required_string_nonempty exampleTypes exampleHeap 0 4
      ⟨"Name", ⟨[("validate", "required")]⟩, 0⟩ "x" rfl rfl (by decide) (by decide)⟩

/-- C7: for every struct value passed to `Validate` and every required field
holding a pointer, the field yields exactly one issue when the pointer is nil
and no issue when it is not nil, whatever the heap holds at its address: the
issue list is that of the fields before it, then the one issue or nothing,
then that of the fields after it. -/
theorem Validate_required_pointer_field (tt : TypeTable) (heap : Heap) (fuel : Nat)
    (t : TypeId) (fields : List StructField) (vals : List Value) (i : Nat)
    (f : StructField) (p : Option Nat)
    (ht : tt t = .struct fields) (hconf : fieldsConform tt fields vals = true)
    (hf : fields.get? i = some f) (hx : vals.get? i = some (.ptr p))
    (hreq : f.Tag.Get "validate" = "required") :
    (tt f.Typ).Kind = .Ptr ∧
    Validate tt heap (fuel + 1) (some (t, .struct vals)) =
      .ok (specResult (specIssues (fields.take i) (vals.take i) ++
        (if p = none then
          [{ FieldName := if f.Tag.Get "json" ≠ "" then f.Tag.Get "json" else f.Name,
             Msg := "Field '" ++ (if f.Tag.Get "json" ≠ "" then f.Tag.Get "json" else f.Name)
                      ++ "' is required but empty" }]
         else []) ++
        specIssues (fields.drop (i + 1)) (vals.drop (i + 1)))) := by
  refine ⟨(fieldsConform_get tt fields vals i f (.ptr p) hconf hf hx).symm, ?_⟩
  rw [Validate_struct_at tt heap fuel t fields vals i f (.ptr p) ht hconf hf hx]
  cases p <;> simp [specFieldIssues, specEmpty, hreq, specIssue, specDisplayName]

/-- C7 at the field `Boss` of `User`: nil in `User{Foo: "x", Boss: nil}`, one
issue; not nil in `User{Foo: "x", Boss: p}`, none. -/
theorem Validate_required_pointer_field_witness :
    (exampleTypes 3 = .struct userFields ∧
      userFields.get? 2 = some ⟨"Boss", ⟨[("validate", "required")]⟩, 2⟩ ∧
      Validate exampleTypes exampleHeap 1
        (some (3, .struct [.string "x", .basic .Int 0, .ptr none, .string ""])) =
        .ok (some ⟨[⟨"Boss", "Field 'Boss' is required but empty"⟩]⟩) ∧
      Validate exampleTypes exampleHeap 1
        (some (3, .struct [.string "x", .basic .Int 0, .ptr (some 0), .string ""])) =
        .ok none) ∧
    ((exampleTypes 2).Kind = .Ptr ∧
      Validate exampleTypes exampleHeap 1
        (some (3, .struct [.string "x", .basic .Int 0, .ptr none, .string ""])) =
        .ok (specResult (specIssues (userFields.take 2) [.string "x", .basic .Int 0] ++
          [⟨"Boss", "Field 'Boss' is required but empty"⟩] ++
          specIssues (userFields.drop 3) [.string ""]))) :=
  ⟨by decide,
    Validate_required_pointer_field exampleTypes exampleHeap 0 3 userFields
      [.string "x", .basic .Int 0, .ptr none, .string ""] 2
      ⟨"Boss", ⟨[("validate", "required")]⟩, 2⟩ none rfl (by decide) rfl rfl (by decide)⟩

/-- C8: for every struct value passed to `Validate`, a required field whose
kind is not `String`, `Ptr` or `Interface` never produces an issue, whatever
its value, the zero value included: the issue list is that of the fields
before it followed by that of the fields after it. -/
theorem Validate_required_other_kind_field (tt : TypeTable) (heap : Heap) (fuel : Nat)
    (t : TypeId) (fields : List StructField) (vals : List Value) (i : Nat)
    (f : StructField) (x : Value)
    (ht : tt t = .struct fields) (hconf : fieldsConform tt fields vals = true)
    (hf : fields.get? i = some f) (hx : vals.get? i = some x)
    (_hreq : f.Tag.Get "validate" = "required")
    (hk : (tt f.Typ).Kind ≠ .String ∧ (tt f.Typ).Kind ≠ .Ptr ∧
      (tt f.Typ).Kind ≠ .Interface) :
    Validate tt heap (fuel + 1) (some (t, .struct vals)) =
      .ok (specResult (specIssues (fields.take i) (vals.take i) ++
        specIssues (fields.drop (i + 1)) (vals.drop (i + 1)))) := by
  have hkx := fieldsConform_get tt fields vals i f x hconf hf hx
  have hE : specEmpty x = false :=
    specEmpty_of_kind x (hkx ▸ hk.1) (hkx ▸ hk.2.1) (hkx ▸ hk.2.2)
  rw [Validate_struct_at tt heap fuel t fields vals i f x ht hconf hf hx]
  simp [specFieldIssues, hE]

/-- C8 at the required `int` field `Age` of `User`, with value 0: on
`User{Foo: "x", Age: 0, Boss: p}` the call succeeds. -/
theorem Validate_required_other_kind_field_witness :
    (exampleTypes 3 = .struct userFields ∧
      userFields.get? 1 = some ⟨"Age", ⟨[("validate", "required")]⟩, 1⟩ ∧
      exampleTypes 1 = .basic .Int ∧
      Validate exampleTypes exampleHeap 1
        (some (3, .struct [.string "x", .basic .Int 0, .ptr (some 0), .string ""])) =
        .ok none) ∧
    Validate exampleTypes exampleHeap 1
        (some (3, .struct [.string "x", .basic .Int 0, .ptr (some 0), .string ""])) =
      .ok (specResult (specIssues (userFields.take 1) [.string "x"] ++
        specIssues (userFields.drop 2) [.ptr (some 0), .string ""])) :=
  ⟨by decide,
    Validate_required_other_kind_field exampleTypes exampleHeap 0 3 userFields
      [.string "x", .basic .Int 0, .ptr (some 0), .string ""] 1
      ⟨"Age", ⟨[("validate", "required")]⟩, 1⟩ (.basic .Int 0) rfl (by decide) rfl rfl
      (by decide) (by decide)⟩

/-- C9: for every struct value passed to `Validate` and every field of it that
is required and empty, the violation is reported at the field's place in the
issue list (after the issues of the fields before it, before those of the
fields after it) under the field's json annotation when that annotation is
present and non-empty, and under the field's declared name otherwise, with
the message built from that same name; and every issue reported is the issue
of such a field under that name. -/
theorem Validate_issue_field_name (tt : TypeTable) (heap : Heap) (fuel : Nat)
    (t : TypeId) (fields : List StructField) (vals : List Value) (i : Nat)
    (f : StructField) (x : Value)
    (ht : tt t = .struct fields) (hconf : fieldsConform tt fields vals = true)
    (hf : fields.get? i = some f) (hx : vals.get? i = some x)
    (hreq : f.Tag.Get "validate" = "required") (hE : isEmpty x = .ok true) :
    Validate tt heap (fuel + 1) (some (t, .struct vals)) =
      .ok (some ⟨specIssues (fields.take i) (vals.take i) ++
        [{ FieldName := if f.Tag.Get "json" ≠ "" then f.Tag.Get "json" else f.Name,
           Msg := "Field '" ++ (if f.Tag.Get "json" ≠ "" then f.Tag.Get "json" else f.Name)
                    ++ "' is required but empty" }] ++
        specIssues (fields.drop (i + 1)) (vals.drop (i + 1))⟩) ∧
    ∀ iss ∈ specIssues (fields.take i) (vals.take i) ++
        [{ FieldName := if f.Tag.Get "json" ≠ "" then f.Tag.Get "json" else f.Name,
           Msg := "Field '" ++ (if f.Tag.Get "json" ≠ "" then f.Tag.Get "json" else f.Name)
                    ++ "' is required but empty" }] ++
        specIssues (fields.drop (i + 1)) (vals.drop (i + 1)),
      ∃ j g y, fields.get? j = some g ∧ vals.get? j = some y ∧
        g.Tag.Get "validate" = "required" ∧ isEmpty y = .ok true ∧
        iss.FieldName = (if g.Tag.Get "json" ≠ "" then g.Tag.Get "json" else g.Name) ∧
        iss.Msg = "Field '" ++ (if g.Tag.Get "json" ≠ "" then g.Tag.Get "json" else g.Name)
          ++ "' is required but empty" := by
  have hE2 : specEmpty x = true := by
    rw [isEmpty_eq] at hE
    simpa using hE
  have hfx : specFieldIssues f x =
      [{ FieldName := if f.Tag.Get "json" ≠ "" then f.Tag.Get "json" else f.Name,
         Msg := "Field '" ++ (if f.Tag.Get "json" ≠ "" then f.Tag.Get "json" else f.Name)
                  ++ "' is required but empty" }] := by
    simp [specFieldIssues, hreq, hE2, specIssue, specDisplayName]
  refine ⟨?_, ?_⟩
  · rw [Validate_struct_at tt heap fuel t fields vals i f x ht hconf hf hx, hfx]
    simp [specResult]
  · intro iss hmem
    rw [← hfx, ← specIssues_split fields vals i f x hf hx] at hmem
    obtain ⟨j, g, y, hg, hy, hgreq, hgE, hiss⟩ := mem_specIssues iss fields vals hmem
    refine ⟨j, g, y, hg, hy, hgreq, ?_, ?_, ?_⟩
    · rw [isEmpty_eq, hgE]
    · rw [hiss]; rfl
    · rw [hiss]; rfl

/-- C9 at `User{Foo: "", Age: 0, Boss: nil, Nick: ""}`: the field declared
`Foo` with json annotation `foo_bar` is reported first, as `foo_bar`, not
`Foo`; the field `Boss`, which has no json annotation, is reported after it
under its declared name. -/
theorem Validate_issue_field_name_witness :
    (userFields.get? 0 = some ⟨"Foo", ⟨[("validate", "required"), ("json", "foo_bar")]⟩, 0⟩ ∧
      userFields.get? 2 = some ⟨"Boss", ⟨[("validate", "required")]⟩, 2⟩ ∧
      isEmpty (.string "") = .ok true ∧ isEmpty (.ptr none) = .ok true ∧
      Validate exampleTypes exampleHeap 1
          (some (3, .struct [.string "", .basic .Int 0, .ptr none, .string ""])) =
        .ok (some ⟨[⟨"foo_bar", "Field 'foo_bar' is required but empty"⟩,
                    ⟨"Boss", "Field 'Boss' is required but empty"⟩]⟩)) ∧
    Validate exampleTypes exampleHeap 1
        (some (3, .struct [.string "", .basic .Int 0, .ptr none, .string ""])) =
      .ok (some ⟨specIssues (userFields.take 0) [] ++
        [⟨"foo_bar", "Field '" ++ "foo_bar" ++ "' is required but empty"⟩] ++
        specIssues (userFields.drop 1) [.basic .Int 0, .ptr none, .string ""]⟩) ∧
    Validate exampleTypes exampleHeap 1
        (some (3, .struct [.string "", .basic .Int 0, .ptr none, .string ""])) =
      .ok (some ⟨specIssues (userFields.take 2) [.string "", .basic .Int 0] ++
        [⟨"Boss", "Field '" ++ "Boss" ++ "' is required but empty"⟩] ++
        specIssues (userFields.drop 3) [.string ""]⟩) :=
  ⟨by decide,
    (Validate_issue_field_name exampleTypes exampleHeap 0 3 userFields
      [.string "", .basic .Int 0, .ptr none, .string ""] 0
      ⟨"Foo", ⟨[("validate", "required"), ("json", "foo_bar")]⟩, 0⟩ (.string "")
      rfl (by decide) rfl rfl (by decide) (by decide)).1,
    (Validate_issue_field_name exampleTypes exampleHeap 0 3 userFields
      [.string "", .basic .Int 0, .ptr none, .string ""] 2
      ⟨"Boss", ⟨[("validate", "required")]⟩, 2⟩ (.ptr none)
      rfl (by decide) rfl rfl (by decide) (by decide)).1⟩

/-- C10: for every struct value passed to `Validate`, a field whose validate
directive is not exactly `required` (absent, or any other string) never
produces an issue, even when its value is empty: the issue list is that of
the fields before it followed by that of the fields after it. -/
theorem Validate_directive_other_than_required (tt : TypeTable) (heap : Heap) (fuel : Nat)
    (t : TypeId) (fields : List StructField) (vals : List Value) (i : Nat)
    (f : StructField) (x : Value)
    (ht : tt t = .struct fields) (hconf : fieldsConform tt fields vals = true)
    (hf : fields.get? i = some f) (hx : vals.get? i = some x)
    (hreq : f.Tag.Get "validate" ≠ "required") :
    Validate tt heap (fuel + 1) (some (t, .struct vals)) =
      .ok (specResult (specIssues (fields.take i) (vals.take i) ++
        specIssues (fields.drop (i + 1)) (vals.drop (i + 1)))) := by
  rw [Validate_struct_at tt heap fuel t fields vals i f x ht hconf hf hx]
  simp [specFieldIssues, hreq]

/-- C10 at the field `Nick` of `User`, whose directive is `Required`, with the
empty string as value: on `User{Foo: "x", Age: 0, Boss: p, Nick: ""}` the
call succeeds. -/
theorem Validate_directive_other_than_required_witness :
    (exampleTypes 3 = .struct userFields ∧
      userFields.get? 3 = some ⟨"Nick", ⟨[("validate", "Required")]⟩, 0⟩ ∧
      isEmpty (.string "") = .ok true ∧
      Validate exampleTypes exampleHeap 1
        (some (3, .struct [.string "x", .basic .Int 0, .ptr (some 0), .string ""])) =
        .ok none) ∧
    Validate exampleTypes exampleHeap 1
        (some (3, .struct [.string "x", .basic .Int 0, .ptr (some 0), .string ""])) =
      .ok (specResult (specIssues (userFields.take 3)
          [.string "x", .basic .Int 0, .ptr (some 0)] ++
        specIssues (userFields.drop 4) [])) :=
  ⟨by decide,
    Validate_directive_other_than_required exampleTypes exampleHeap 0 3 userFields
      [.string "x", .basic .Int 0, .ptr (some 0), .string ""] 3
      ⟨"Nick", ⟨[("validate", "Required")]⟩, 0⟩ (.string "") rfl (by decide) rfl rfl
      (by decide)⟩

/-! ## The claims, continued -/

theorem specIssues_eq_nil_of_no_directive :
    ∀ (fields : List StructField) (vals : List Value),
      (∀ f ∈ fields, f.Tag.Get "validate" = "") → specIssues fields vals = []
  | [], _, _ => by simp [specIssues]
  | _ :: _, [], _ => by simp [specIssues]
  | g :: gs, y :: ys, h => by
    have hg : g.Tag.Get "validate" = "" := h g (List.mem_cons_self g gs)
    have hne : g.Tag.Get "validate" ≠ "required" := by rw [hg]; decide
    have ih := specIssues_eq_nil_of_no_directive gs ys
      (fun f hf => h f (List.mem_cons_of_mem g hf))
    simp [specIssues, specFieldIssues, hne, ih]

theorem specFieldIssues_length_le (f : StructField) (x : Value) :
    (specFieldIssues f x).length ≤ 1 := by
  unfold specFieldIssues
  split <;> simp

theorem specIssues_length_le :
    ∀ (fields : List StructField) (vals : List Value),
      (specIssues fields vals).length ≤ fields.length
  | [], _ => by simp [specIssues]
  | _ :: _, [] => by simp [specIssues]
  | g :: gs, y :: ys => by
    have h1 := specFieldIssues_length_le g y
    have h2 := specIssues_length_le gs ys
    simp only [specIssues, List.length_append, List.length_cons]
    omega

/-- C11: for every struct value none of whose fields carries a validate
directive, `Validate` returns nil, whatever the field values. -/
theorem Validate_no_directive (tt : TypeTable) (heap : Heap) (fuel : Nat) (t : TypeId)
    (fields : List StructField) (vals : List Value)
    (ht : tt t = .struct fields) (hconf : fieldsConform tt fields vals = true)
    (hno : ∀ f ∈ fields, f.Tag.Get "validate" = "") :
    Validate tt heap (fuel + 1) (some (t, .struct vals)) = .ok none := by
  rw [Validate_struct_eq tt heap fuel t fields vals ht hconf,
    specIssues_eq_nil_of_no_directive fields vals hno]
  rfl

/-- C11 at `Plain{A: "", B: nil, C: 0}`: every field holds its zero value and
the call succeeds. -/
theorem Validate_no_directive_witness :
    moreTypes 8 = .struct plainFields ∧
    fieldsConform moreTypes plainFields [.string "", .ptr none, .basic .Int 0] = true ∧
    (∀ f ∈ plainFields, f.Tag.Get "validate" = "") ∧
    Validate moreTypes nodeHeap 1
      (some (8, .struct [.string "", .ptr none, .basic .Int 0])) = .ok none :=
  ⟨rfl, by decide, by decide,
    Validate_no_directive moreTypes nodeHeap 0 8 plainFields
      [.string "", .ptr none, .basic .Int 0] rfl (by decide) (by decide)⟩

/-- With a struct type that has a field and a value on which `Field` panics,
`examinerStruct` panics at the first field. -/
theorem examinerStruct_panics_of_not_struct (tt : TypeTable) (s : TypeId) (f : StructField)
    (fields : List StructField) (v : Value) (issues : List validateIssue)
    (hs : tt s = .struct (f :: fields)) (hv : v.Field 0 = .panic .valueField) :
    examinerStruct tt (some s) v issues = .panic .valueField := by
  simp [examinerStruct, examinerStruct.loop, examinerStruct.body, RType.NumField,
    RType.Field, hs, hv]

/-- C12 (the code departs from the claim): on the untyped nil,
`reflect.TypeOf` gives the nil `reflect.Type`, and `examiner` calls `Kind` on
it, which panics; `Validate` returns nothing. -/
theorem Validate_untyped_nil_panics (tt : TypeTable) (heap : Heap) (fuel : Nat) :
    Validate tt heap (fuel + 1) none = .panic .nilType := by
  simp [Validate, TypeOf, ValueOf, examiner, RType.Kind]

/-- C13 (the code departs from the claim): on a slice of a struct type with at
least one field, `examiner` passes the slice value on with the element type,
and `examinerStruct` calls `Field` on the slice value, which panics; this is
so for every slice, nil or not, of any length and contents. -/
theorem Validate_slice_of_struct_panics (tt : TypeTable) (heap : Heap) (fuel : Nat)
    (t s : TypeId) (f : StructField) (fields : List StructField)
    (elems : Option (List Value))
    (ht : tt t = .slice s) (hs : tt s = .struct (f :: fields)) :
    Validate tt heap (fuel + 2) (some (t, .slice elems)) = .panic .valueField := by
  have h := examinerStruct_panics_of_not_struct tt s f fields (.slice elems) [] hs rfl
  simp [Validate, TypeOf, ValueOf, examiner, RType.Kind, RType.Elem, GoType.Kind, ht, hs, h]

/-- C13 at `[]Inner`: on `Inner{Name: ""}` itself `Validate` returns one
issue; on the slices of lengths 0, 1 and 3 it panics. -/
theorem Validate_slice_of_struct_panics_witness :
    (moreTypes 2 = .slice 1 ∧ moreTypes 1 = .struct innerFields ∧
      Validate moreTypes nodeHeap 2 (some (1, .struct [.string ""])) =
        .ok (some ⟨[⟨"Name", "Field 'Name' is required but empty"⟩]⟩) ∧
      Validate moreTypes nodeHeap 2 (some (2, .slice (some []))) = .panic .valueField ∧
      Validate moreTypes nodeHeap 2 (some (2, .slice (some [.struct [.string ""]]))) =
        .panic .valueField) ∧
    Validate moreTypes nodeHeap 2 (some (2, .slice (some
      [.struct [.string ""], .struct [.string "x"], .struct [.string ""]]))) =
      .panic .valueField :=
  ⟨by decide,
    Validate_slice_of_struct_panics moreTypes nodeHeap 0 2 1
      ⟨"Name", ⟨[("validate", "required")]⟩, 0⟩ []
      (some [.struct [.string ""], .struct [.string "x"], .struct [.string ""]]) rfl rfl⟩

/-- C14 (the code departs from the claim): on a typed nil pointer to a struct
type with at least one field, `examiner` does not dereference the pointer, but
passes the nil pointer value on with the struct type, and `examinerStruct`
calls `Field` on the pointer value, which panics. -/
theorem Validate_nil_pointer_to_struct_panics (tt : TypeTable) (heap : Heap) (fuel : Nat)
    (t s : TypeId) (f : StructField) (fields : List StructField)
    (ht : tt t = .ptr s) (hs : tt s = .struct (f :: fields)) :
    Validate tt heap (fuel + 2) (some (t, .ptr none)) = .panic .valueField := by
  have h := examinerStruct_panics_of_not_struct tt s f fields (.ptr none) [] hs rfl
  simp [Validate, TypeOf, ValueOf, examiner, RType.Kind, RType.Elem, Value.IsNil,
    GoType.Kind, ht, hs, h]

/-- C14 at the nil `*Inner`. -/
theorem Validate_nil_pointer_to_struct_panics_witness :
    moreTypes 3 = .ptr 1 ∧ moreTypes 1 = .struct innerFields ∧
    Validate moreTypes nodeHeap 2 (some (3, .ptr none)) = .panic .valueField :=
  ⟨rfl, rfl,
    Validate_nil_pointer_to_struct_panics moreTypes nodeHeap 0 3 1
      ⟨"Name", ⟨[("validate", "required")]⟩, 0⟩ [] rfl rfl⟩

/-- C15: for every input whose kind is not `Ptr`, `Slice`, `Array`, `Map`,
`Chan` or `Struct`, `Validate` does not recurse (a budget of one call of
`examiner` is enough) and returns nil, whatever the value. -/
theorem Validate_inert_kind (tt : TypeTable) (heap : Heap) (fuel : Nat) (t : TypeId)
    (x : Value)
    (hk : (tt t).Kind ≠ .Ptr ∧ (tt t).Kind ≠ .Slice ∧ (tt t).Kind ≠ .Array ∧
      (tt t).Kind ≠ .Map ∧ (tt t).Kind ≠ .Chan ∧ (tt t).Kind ≠ .Struct) :
    Validate tt heap (fuel + 1) (some (t, x)) = .ok none := by
  obtain ⟨h1, h2, h3, h4, h5, h6⟩ := hk
  cases hd : tt t with
  | basic k =>
    cases k <;>
      simp [Validate, TypeOf, ValueOf, examiner, RType.Kind, GoType.Kind, hd,
        BasicKind.toKind]
  | string => simp [Validate, TypeOf, ValueOf, examiner, RType.Kind, GoType.Kind, hd]
  | func => simp [Validate, TypeOf, ValueOf, examiner, RType.Kind, GoType.Kind, hd]
  | interface => simp [Validate, TypeOf, ValueOf, examiner, RType.Kind, GoType.Kind, hd]
  | unsafePointer =>
    simp [Validate, TypeOf, ValueOf, examiner, RType.Kind, GoType.Kind, hd]
  | array n e => rw [hd] at h3; exact absurd rfl h3
  | chan e => rw [hd] at h5; exact absurd rfl h5
  | map k e => rw [hd] at h4; exact absurd rfl h4
  | ptr e => rw [hd] at h1; exact absurd rfl h1
  | slice e => rw [hd] at h2; exact absurd rfl h2
  | struct fs => rw [hd] at h6; exact absurd rfl h6

/-- C15 at the top-level empty string, with an `int` and a nil `func()`
beside it. -/
theorem Validate_inert_kind_witness :
    (moreTypes 0 = .string ∧
      Validate moreTypes nodeHeap 1 (some (9, .basic .Int 0)) = .ok none ∧
      Validate moreTypes nodeHeap 1 (some (10, .func true)) = .ok none) ∧
    Validate moreTypes nodeHeap 1 (some (0, .string "")) = .ok none :=
  ⟨by decide, Validate_inert_kind moreTypes nodeHeap 0 0 (.string "") (by decide)⟩

/-- C17: for every struct value passed directly to `Validate`, the call
returns: each `Field` call on the type and on the value, at every index the
loop visits, is in range and succeeds, and the number of issues returned is
at most the number of fields. -/
theorem Validate_struct_returns (tt : TypeTable) (heap : Heap) (fuel : Nat) (t : TypeId)
    (fields : List StructField) (vals : List Value)
    (ht : tt t = .struct fields) (hconf : fieldsConform tt fields vals = true) :
    (∀ i, i < fields.length →
      (∃ f, RType.Field tt (some t) i = .ok f) ∧
      (∃ x, Value.Field (.struct vals) i = .ok x ∧ ∃ b, isEmpty x = .ok b)) ∧
    ∃ r, Validate tt heap (fuel + 1) (some (t, .struct vals)) = .ok r ∧
      (r = none ∨ ∃ e, r = some e ∧ e.ValidationIssues.length ≤ fields.length) := by
  have hlen := fieldsConform_length tt fields vals hconf
  refine ⟨?_, ?_⟩
  · intro i hi
    have hi2 : i < vals.length := by omega
    refine ⟨⟨fields.get ⟨i, hi⟩, ?_⟩, ⟨vals.get ⟨i, hi2⟩, ?_, ⟨_, isEmpty_eq _⟩⟩⟩
    · simp only [RType.Field, ht, List.get?_eq_get hi]
    · simp only [Value.Field, List.get?_eq_get hi2]
  · refine ⟨_, Validate_struct_eq tt heap fuel t fields vals ht hconf, ?_⟩
    unfold specResult
    split
    · exact Or.inl rfl
    · exact Or.inr ⟨_, rfl, specIssues_length_le fields vals⟩

/-- C17 at `User{Foo: "", Age: 0, Boss: nil, Nick: ""}`: four fields, two
issues. -/
theorem Validate_struct_returns_witness :
    Validate exampleTypes exampleHeap 1 (some (3, userBlank)) =
      .ok (some ⟨userBlankIssues⟩) ∧
    ((∀ i, i < userFields.length →
        (∃ f, RType.Field exampleTypes (some 3) i = .ok f) ∧
        (∃ x, Value.Field (.struct [.string "", .basic .Int 0, .ptr none, .string ""]) i =
          .ok x ∧ ∃ b, isEmpty x = .ok b)) ∧
      ∃ r, Validate exampleTypes exampleHeap 1
          (some (3, .struct [.string "", .basic .Int 0, .ptr none, .string ""])) = .ok r ∧
        (r = none ∨ ∃ e, r = some e ∧ e.ValidationIssues.length ≤ userFields.length)) :=
  ⟨by decide,
    Validate_struct_returns exampleTypes exampleHeap 0 3 userFields
      [.string "", .basic .Int 0, .ptr none, .string ""] rfl (by decide)⟩

/-- C18: the field name reported for a required, empty field with a non-empty
json tag value is that value as it stands, with no parsing of comma-separated
options, and the message is built from the same value: the issue list is that
of the fields before, then this one issue, then that of the fields after. -/
theorem Validate_json_tag_verbatim (tt : TypeTable) (heap : Heap) (fuel : Nat) (t : TypeId)
    (fields : List StructField) (vals : List Value) (i : Nat) (f : StructField) (x : Value)
    (ht : tt t = .struct fields) (hconf : fieldsConform tt fields vals = true)
    (hf : fields.get? i = some f) (hx : vals.get? i = some x)
    (hreq : f.Tag.Get "validate" = "required") (hE : isEmpty x = .ok true)
    (hjson : f.Tag.Get "json" ≠ "") :
    Validate tt heap (fuel + 1) (some (t, .struct vals)) =
      .ok (some ⟨specIssues (fields.take i) (vals.take i) ++
        [{ FieldName := f.Tag.Get "json",
           Msg := "Field '" ++ f.Tag.Get "json" ++ "' is required but empty" }] ++
        specIssues (fields.drop (i + 1)) (vals.drop (i + 1))⟩) := by
  have hE2 : specEmpty x = true := by
    rw [isEmpty_eq] at hE
    simpa using hE
  rw [Validate_struct_at tt heap fuel t fields vals i f x ht hconf hf hx]
  simp [specFieldIssues, hreq, hE2, specIssue, specDisplayName, hjson, specResult]

/-- C18 at `Tagged{Name: "", Secret: "", Any: 0}`: the field tagged
`json:"name,omitempty"` is reported as `name,omitempty`, the field tagged
`json:"-"` as `-`. -/
theorem Validate_json_tag_verbatim_witness :
    Validate moreTypes nodeHeap 1
        (some (6, .struct [.string "", .string "", .iface (some (.basic .Int 0))])) =
      .ok (some ⟨[⟨"name,omitempty", "Field 'name,omitempty' is required but empty"⟩,
                  ⟨"-", "Field '-' is required but empty"⟩]⟩) ∧
    Validate moreTypes nodeHeap 1
        (some (6, .struct [.string "", .string "", .iface (some (.basic .Int 0))])) =
      .ok (some ⟨specIssues (taggedFields.take 0) [] ++
        [⟨"name,omitempty", "Field '" ++ "name,omitempty" ++ "' is required but empty"⟩] ++
        specIssues (taggedFields.drop 1) [.string "", .iface (some (.basic .Int 0))]⟩) :=
  ⟨by decide,
    Validate_json_tag_verbatim moreTypes nodeHeap 0 6 taggedFields
      [.string "", .string "", .iface (some (.basic .Int 0))] 0
      ⟨"Name", ⟨[("validate", "required"), ("json", "name,omitempty")]⟩, 0⟩ (.string "")
      rfl (by decide) rfl rfl (by decide) (by decide) (by decide)⟩

/-- C19: for every struct value passed to `Validate`, a required field of
interface kind is flagged if and only if the interface itself is nil; an
interface that holds a value, whatever the value (a typed nil pointer, an
empty string, a zero number), is not flagged. -/
theorem Validate_required_interface_field (tt : TypeTable) (heap : Heap) (fuel : Nat)
    (t : TypeId) (fields : List StructField) (vals : List Value) (i : Nat)
    (f : StructField) (d : Option Value)
    (ht : tt t = .struct fields) (hconf : fieldsConform tt fields vals = true)
    (hf : fields.get? i = some f) (hx : vals.get? i = some (.iface d))
    (hreq : f.Tag.Get "validate" = "required") :
    (tt f.Typ).Kind = .Interface ∧
    Validate tt heap (fuel + 1) (some (t, .struct vals)) =
      .ok (specResult (specIssues (fields.take i) (vals.take i) ++
        (if d.isNone then
          [{ FieldName := if f.Tag.Get "json" ≠ "" then f.Tag.Get "json" else f.Name,
             Msg := "Field '" ++ (if f.Tag.Get "json" ≠ "" then f.Tag.Get "json" else f.Name)
                      ++ "' is required but empty" }]
         else []) ++
        specIssues (fields.drop (i + 1)) (vals.drop (i + 1)))) := by
  refine ⟨(fieldsConform_get tt fields vals i f (.iface d) hconf hf hx).symm, ?_⟩
  rw [Validate_struct_at tt heap fuel t fields vals i f (.iface d) ht hconf hf hx]
  cases d <;> simp [specFieldIssues, specEmpty, hreq, specIssue, specDisplayName]

/-- C19 at the field `Any` of `Tagged`: flagged when it is the nil interface,
not flagged when it holds a nil `*Inner`, the empty string or the number 0. -/
theorem Validate_required_interface_field_witness :
    (Validate moreTypes nodeHeap 1
        (some (6, .struct [.string "n", .string "s", .iface none])) =
        .ok (some ⟨[⟨"Any", "Field 'Any' is required but empty"⟩]⟩) ∧
      Validate moreTypes nodeHeap 1
        (some (6, .struct [.string "n", .string "s", .iface (some (.ptr none))])) =
        .ok none ∧
      Validate moreTypes nodeHeap 1
        (some (6, .struct [.string "n", .string "s", .iface (some (.string ""))])) =
        .ok none ∧
      Validate moreTypes nodeHeap 1
        (some (6, .struct [.string "n", .string "s", .iface (some (.basic .Int 0))])) =
        .ok none) ∧
    ((moreTypes 7).Kind = .Interface ∧
      Validate moreTypes nodeHeap 1
        (some (6, .struct [.string "n", .string "s", .iface (some (.ptr none))])) =
        .ok (specResult (specIssues (taggedFields.take 2) [.string "n", .string "s"] ++
          [] ++ specIssues (taggedFields.drop 3) []))) :=
  ⟨by decide,
    Validate_required_interface_field moreTypes nodeHeap 0 6 taggedFields
      [.string "n", .string "s", .iface (some (.ptr none))] 2
      ⟨"Any", ⟨[("validate", "required")]⟩, 7⟩ (some (.ptr none)) rfl (by decide) rfl rfl
      (by decide)⟩

/-! ## Termination of `examiner` -/

theorem RType_Elem_eq (tt : TypeTable) (t : TypeId) :
    RType.Elem tt (some t) =
      match elemOf (tt t) with
      | some e => .ok (some e)
      | none => .panic .typeElem := by
  cases h : tt t <;> simp [RType.Elem, elemOf, h]

theorem RType_Field_ne_outOfFuel (tt : TypeTable) (t : RType) (i : Nat) :
    RType.Field tt t i ≠ .outOfFuel := by
  cases t with
  | none => simp [RType.Field]
  | some t =>
    simp only [RType.Field]
    split
    · split <;> simp
    · simp

theorem Value_Field_ne_outOfFuel (v : Value) (i : Nat) : v.Field i ≠ .outOfFuel := by
  cases v with
  | struct fields =>
    simp only [Value.Field]
    split <;> simp
  | _ => simp [Value.Field]

theorem Value_IsNil_ne_outOfFuel (v : Value) : v.IsNil ≠ .outOfFuel := by
  cases v <;> simp [Value.IsNil]

theorem Value_Elem_ne_outOfFuel (heap : Heap) (v : Value) : v.Elem heap ≠ .outOfFuel := by
  cases v with
  | iface d => cases d <;> simp [Value.Elem]
  | ptr a => cases a <;> simp [Value.Elem]
  | _ => simp [Value.Elem]

/-- One iteration of the loop of `examinerStruct` returns or panics. -/
theorem examinerStruct_body_ne_outOfFuel (tt : TypeTable) (t : RType) (v : Value) (i : Nat)
    (issues : List validateIssue) :
    examinerStruct.body tt t v i issues ≠ .outOfFuel := by
  unfold examinerStruct.body
  cases hf : RType.Field tt t i with
  | outOfFuel => exact absurd hf (RType_Field_ne_outOfFuel tt t i)
  | panic p => simp
  | ok f =>
    cases hx : v.Field i with
    | outOfFuel => exact absurd hx (Value_Field_ne_outOfFuel v i)
    | panic p => simp
    | ok x =>
      simp only [Outcome.ok_bind, isEmpty_eq, Outcome.pure_eq]
      split
      · split
        · split <;> simp
        · simp
      · simp

/-- The loop of `examinerStruct`, entered with enough evaluations of its
condition left, returns or panics, on any value. -/
theorem examinerStruct_loop_ne_outOfFuel (tt : TypeTable) (t : RType) (v : Value) (n : Nat)
    (hn : RType.NumField tt t = .ok n) :
    ∀ (todo i : Nat) (issues : List validateIssue), i ≤ n → n < i + todo →
      examinerStruct.loop tt t v todo i issues ≠ .outOfFuel := by
  intro todo
  induction todo with
  | zero =>
    intro i issues hle h
    omega
  | succ todo ih =>
    intro i issues hle h
    simp only [examinerStruct.loop, hn, Outcome.ok_bind]
    by_cases hi : i < n
    · rw [if_pos hi]
      cases hb : examinerStruct.body tt t v i issues with
      | outOfFuel => exact absurd hb (examinerStruct_body_ne_outOfFuel tt t v i issues)
      | panic p => simp
      | ok issues2 =>
        simp only [Outcome.ok_bind]
        exact ih (i + 1) issues2 (by omega) (by omega)
    · rw [if_neg hi]
      simp

/-- The function `examinerStruct` returns or panics, on any type and value. -/
theorem examinerStruct_ne_outOfFuel (tt : TypeTable) (t : RType) (v : Value)
    (issues : List validateIssue) : examinerStruct tt t v issues ≠ .outOfFuel := by
  unfold examinerStruct
  cases hn : RType.NumField tt t with
  | outOfFuel =>
    cases t with
    | none => simp [RType.NumField] at hn
    | some t =>
      simp only [RType.NumField] at hn
      split at hn <;> simp at hn
  | panic p => simp
  | ok n =>
    simp only [Outcome.ok_bind]
    exact examinerStruct_loop_ne_outOfFuel tt t v n hn (n + 1) 0 issues (by omega) (by omega)

theorem elemChain_step (tt : TypeTable) (n : Nat) (t0 t e : TypeId)
    (he : elemOf (tt t0) = some e) (hch : elemChain tt n t0 = some t)
    (hend : elemOf (tt t) = none) : ∃ m, n = m + 1 ∧ elemChain tt m e = some t := by
  cases n with
  | zero =>
    simp only [elemChain, Option.some.injEq] at hch
    subst hch
    rw [he] at hend
    cases hend
  | succ m =>
    refine ⟨m, rfl, ?_⟩
    simpa only [elemChain, he] using hch

/-- One step of `examiner` on a type with an element type, when the pointer
is not unwrapped: the call is the recursive call on the element type. -/
theorem examiner_step_keep (tt : TypeTable) (heap : Heap) (fuel : Nat) (t0 e : TypeId)
    (v : Value) (depth : Nat) (issues : List validateIssue)
    (he : elemOf (tt t0) = some e)
    (hkeep : (tt t0).Kind ≠ .Ptr ∨ v.IsNil = .ok true) :
    examiner tt heap (fuel + 1) (some t0) v depth issues =
      examiner tt heap fuel (some e) v (depth + 1) issues := by
  cases hd : tt t0 with
  | array n e2 =>
    rw [hd] at he; cases he
    simp [examiner, RType.Kind, RType.Elem, GoType.Kind, hd]
  | chan e2 =>
    rw [hd] at he; cases he
    simp [examiner, RType.Kind, RType.Elem, GoType.Kind, hd]
  | map k e2 =>
    rw [hd] at he; cases he
    simp [examiner, RType.Kind, RType.Elem, GoType.Kind, hd]
  | slice e2 =>
    rw [hd] at he; cases he
    simp [examiner, RType.Kind, RType.Elem, GoType.Kind, hd]
  | ptr e2 =>
    rw [hd] at he; cases he
    rcases hkeep with h | h
    · rw [hd] at h; exact absurd rfl h
    · simp [examiner, RType.Kind, RType.Elem, GoType.Kind, hd, h]
  | basic k => rw [hd] at he; cases he
  | string => rw [hd] at he; cases he
  | func => rw [hd] at he; cases he
  | interface => rw [hd] at he; cases he
  | struct fs => rw [hd] at he; cases he
  | unsafePointer => rw [hd] at he; cases he

/-- One step of `examiner` on a pointer type with a pointer that is not nil:
the type and the value are unwrapped, and the call goes on with `Elem` of the
pointed-to type. -/
theorem examiner_step_unwrap (tt : TypeTable) (heap : Heap) (fuel : Nat) (t0 e : TypeId)
    (v w : Value) (depth : Nat) (issues : List validateIssue)
    (hd : tt t0 = .ptr e) (hnil : v.IsNil = .ok false) (hw : v.Elem heap = .ok w) :
    examiner tt heap (fuel + 1) (some t0) v depth issues =
      match elemOf (tt e) with
      | some e2 => examiner tt heap fuel (some e2) w (depth + 1) issues
      | none => .panic .typeElem := by
  have h1 : RType.Elem tt (some t0) = .ok (some e) := by simp [RType.Elem, hd]
  simp only [examiner, RType.Kind, GoType.Kind, hd, Outcome.ok_bind, hnil, if_true,
    Outcome.pure_eq, Bool.not_false, h1, hw, RType_Elem_eq tt e]
  cases elemOf (tt e) <;> simp

theorem ptr_of_kind_of_elemOf (d : GoType) (e : TypeId) (hk : d.Kind = .Ptr)
    (he : elemOf d = some e) : d = .ptr e := by
  cases d with
  | ptr e2 =>
    simp only [elemOf, Option.some.injEq] at he
    rw [he]
  | array k e2 => cases hk
  | chan e2 => cases hk
  | map k e2 => cases hk
  | slice e2 => cases hk
  | basic k => cases he
  | string => cases he
  | func => cases he
  | interface => cases he
  | struct fs => cases he
  | unsafePointer => cases he

/-- When the chain of element types from the type of the input ends, after
`n` steps, in a type that has no element type, `examiner` returns or panics
within a budget of `n + 1`. -/
theorem examiner_ne_outOfFuel (tt : TypeTable) (heap : Heap) (t : TypeId)
    (hend : elemOf (tt t) = none) :
    ∀ (n : Nat) (t0 : TypeId) (v : Value) (fuel depth : Nat) (issues : List validateIssue),
      elemChain tt n t0 = some t → n < fuel →
      examiner tt heap fuel (some t0) v depth issues ≠ .outOfFuel := by
  intro n
  induction n using Nat.strong_induction_on with
  | _ n ih =>
    intro t0 v fuel depth issues hch hfuel
    cases fuel with
    | zero => omega
    | succ fuel =>
      cases he : elemOf (tt t0) with
      | none =>
        cases hd : tt t0 with
        | struct fs =>
          simp only [examiner, RType.Kind, GoType.Kind, hd, Outcome.ok_bind]
          exact examinerStruct_ne_outOfFuel tt (some t0) v issues
        | basic k =>
          cases k <;> simp [examiner, RType.Kind, GoType.Kind, hd, BasicKind.toKind]
        | string => simp [examiner, RType.Kind, GoType.Kind, hd]
        | func => simp [examiner, RType.Kind, GoType.Kind, hd]
        | interface => simp [examiner, RType.Kind, GoType.Kind, hd]
        | unsafePointer => simp [examiner, RType.Kind, GoType.Kind, hd]
        | array k e => rw [hd] at he; cases he
        | chan e => rw [hd] at he; cases he
        | map k e => rw [hd] at he; cases he
        | ptr e => rw [hd] at he; cases he
        | slice e => rw [hd] at he; cases he
      | some e =>
        obtain ⟨m, hn, hm⟩ := elemChain_step tt n t0 t e he hch hend
        by_cases hk : (tt t0).Kind = .Ptr
        · cases hnil : v.IsNil with
          | outOfFuel => exact absurd hnil (Value_IsNil_ne_outOfFuel v)
          | panic p =>
            simp [examiner, RType.Kind, hk, hnil]
          | ok b =>
            cases b with
            | true =>
              rw [examiner_step_keep tt heap fuel t0 e v depth issues he (Or.inr hnil)]
              exact ih m (by omega) e v fuel (depth + 1) issues hm (by omega)
            | false =>
              have hd : tt t0 = .ptr e := ptr_of_kind_of_elemOf (tt t0) e hk he
              cases hw : v.Elem heap with
              | outOfFuel => exact absurd hw (Value_Elem_ne_outOfFuel heap v)
              | panic p =>
                simp [examiner, RType.Kind, RType.Elem, GoType.Kind, hd, hnil, hw]
              | ok w =>
                rw [examiner_step_unwrap tt heap fuel t0 e v w depth issues hd hnil hw]
                cases he2 : elemOf (tt e) with
                | none => simp
                | some e2 =>
                  obtain ⟨k, hmk, hk2⟩ := elemChain_step tt m e t e2 he2 hm hend
                  exact ih k (by omega) e2 w fuel (depth + 1) issues hk2 (by omega)
        · rw [examiner_step_keep tt heap fuel t0 e v depth issues he (Or.inl hk)]
          exact ih m (by omega) e v fuel (depth + 1) issues hm (by omega)

/-- On a value of the type `type P *P`, nil or not, `examiner` uses up every
budget. -/
theorem examiner_selfPtr_outOfFuel :
    ∀ (fuel : Nat) (a : Option Nat) (depth : Nat) (issues : List validateIssue),
      examiner selfPtrTypes selfPtrHeap fuel (some 0) (.ptr a) depth issues = .outOfFuel
  | 0, _, _, _ => rfl
  | fuel + 1, none, depth, issues => by
    rw [examiner_step_keep selfPtrTypes selfPtrHeap fuel 0 0 (.ptr none) depth issues rfl
      (Or.inr rfl)]
    exact examiner_selfPtr_outOfFuel fuel none (depth + 1) issues
  | fuel + 1, some a, depth, issues => by
    rw [examiner_step_unwrap selfPtrTypes selfPtrHeap fuel 0 0 (.ptr (some a))
      (.ptr (some 0)) depth issues rfl rfl rfl]
    exact examiner_selfPtr_outOfFuel fuel (some 0) (depth + 1) issues

/-- When the chain of element types from the type of the input ends in a
type that has no element type, `Validate` returns or panics. -/
theorem Validate_returns_or_panics (tt : TypeTable) (heap : Heap) (t0 t : TypeId) (n : Nat)
    (v : Value) (fuel : Nat) (hend : elemOf (tt t) = none)
    (hch : elemChain tt n t0 = some t) (hfuel : n < fuel) :
    (∃ r, Validate tt heap fuel (some (t0, v)) = .ok r) ∨
      (∃ p, Validate tt heap fuel (some (t0, v)) = .panic p) := by
  have h := examiner_ne_outOfFuel tt heap t hend n t0 v fuel 0 [] hch hfuel
  unfold Validate
  simp only [TypeOf, ValueOf]
  cases hex : examiner tt heap fuel (some t0) v 0 [] with
  | outOfFuel => exact absurd hex h
  | panic p => exact Or.inr ⟨p, rfl⟩
  | ok issues =>
    left
    simp only [Outcome.ok_bind]
    split <;> exact ⟨_, rfl⟩

/-- C16, against the claim as stated: no input whose type is a struct with a
field of type pointer to that struct, or leads to such a struct through
pointers and containers, makes `Validate` use up every budget.  On the `Node`
at address 0, whose `Next` points to itself, `Validate` returns nil; on the
pointer to it `Validate` panics. -/
theorem Validate_self_referential_struct_counterexample :
    (moreTypes 4 = .struct nodeFields ∧
      nodeFields.get? 0 = some ⟨"Next", ⟨[("validate", "required")]⟩, 5⟩ ∧
      moreTypes 5 = .ptr 4 ∧ nodeHeap 0 = .struct [.ptr (some 0)] ∧
      Validate moreTypes nodeHeap 1 (some (4, .struct [.ptr (some 0)])) = .ok none ∧
      Validate moreTypes nodeHeap 1 (some (5, .ptr (some 0))) = .panic .typeElem) ∧
    ¬ ∃ (tt : TypeTable) (heap : Heap) (t0 t : TypeId) (n : Nat)
        (fields : List StructField) (v : Value),
      tt t = .struct fields ∧ (∃ f ∈ fields, tt f.Typ = .ptr t) ∧
      elemChain tt n t0 = some t ∧
      ∀ fuel, Validate tt heap fuel (some (t0, v)) = .outOfFuel := by
  refine ⟨⟨rfl, rfl, rfl, rfl, by decide, by decide⟩, ?_⟩
  rintro ⟨tt, heap, t0, t, n, fields, v, ht, _, hch, hall⟩
  have hend : elemOf (tt t) = none := by rw [ht]; rfl
  have h := Validate_returns_or_panics tt heap t0 t n v (n + 1) hend hch (by omega)
  rw [hall (n + 1)] at h
  rcases h with ⟨r, hr⟩ | ⟨p, hp⟩
  · cases hr
  · cases hp

/-- C16 as amended: on every input whose type is a struct with a field of type
pointer to that struct, or reaches such a struct in `n` steps through
pointers and containers, `Validate` returns or panics within a budget above
`n`, whatever the value and the heap, live cycles included; the input on
which `Validate` recurses without end is a value of the self-referential
pointer type `type P *P`, nil or pointing to itself. -/
theorem Validate_self_referential_struct_terminates (tt : TypeTable) (heap : Heap)
    (t0 t : TypeId) (n : Nat) (fields : List StructField) (v : Value) (fuel : Nat)
    (ht : tt t = .struct fields) (_hself : ∃ f ∈ fields, tt f.Typ = .ptr t)
    (hch : elemChain tt n t0 = some t) (hfuel : n < fuel) :
    ((∃ r, Validate tt heap fuel (some (t0, v)) = .ok r) ∨
      (∃ p, Validate tt heap fuel (some (t0, v)) = .panic p)) ∧
    (selfPtrTypes 0 = .ptr 0 ∧ selfPtrHeap 0 = .ptr (some 0) ∧
      ∀ (budget : Nat) (a : Option Nat),
        Validate selfPtrTypes selfPtrHeap budget (some (0, .ptr a)) = .outOfFuel) := by
  have hend : elemOf (tt t) = none := by rw [ht]; rfl
  refine ⟨Validate_returns_or_panics tt heap t0 t n v fuel hend hch hfuel, rfl, rfl, ?_⟩
  intro budget a
  simp [Validate, TypeOf, ValueOf, examiner_selfPtr_outOfFuel budget a 0 []]

/-- C16 as amended, at the pointer to the `Node` at address 0, whose `Next`
points to itself: one step leads from `*Node` to `Node`. -/
theorem Validate_self_referential_struct_terminates_witness :
    (moreTypes 4 = .struct nodeFields ∧
      (∃ f ∈ nodeFields, moreTypes f.Typ = .ptr 4) ∧
      elemChain moreTypes 1 5 = some 4 ∧ 1 < 2) ∧
    (((∃ r, Validate moreTypes nodeHeap 2 (some (5, .ptr (some 0))) = .ok r) ∨
      (∃ p, Validate moreTypes nodeHeap 2 (some (5, .ptr (some 0))) = .panic p)) ∧
    (selfPtrTypes 0 = .ptr 0 ∧ selfPtrHeap 0 = .ptr (some 0) ∧
      ∀ (budget : Nat) (a : Option Nat),
        Validate selfPtrTypes selfPtrHeap budget (some (0, .ptr a)) = .outOfFuel)) :=
  ⟨by decide,
    Validate_self_referential_struct_terminates moreTypes nodeHeap 5 4 1 nodeFields
      (.ptr (some 0)) 2 rfl (by decide) (by decide) (by decide)⟩

end validator
